import Mathlib

/-!
Verification of the smart-search recommendation pipeline of src/index.js.

The development shallowly embeds the pipeline of the POST /smart-search
handler: JavaScript values flowing through the pipeline are modelled by an
inductive `Json` type, the markdown code-fence cleaning of oracle output is
modelled character by character after the two regex replacements and the
final trim, JSON.parse is modelled by an executable fuel-based parser over
trimmed character lists, the catalog fan-out is modelled by a per-title
outcome type, and the two generative-oracle calls are modelled as functions
from the prompt text to either a failure or a raw response text.
-/

namespace SmartSearch

/-- Model of a JavaScript value produced by JSON.parse. Numbers are
modelled as integers, which covers every value the pipeline inspects. -/
inductive Json where
  | str (text : String) : Json
  | num (value : Int) : Json
  | arr (items : List Json) : Json
  | obj (entries : List (String × Json)) : Json
  | bool (flag : Bool) : Json
  | null : Json

/-- JavaScript truthiness of a parsed JSON value, as used by the
checks such as the one on line 150 of src/index.js. -/
def jsTruthy : Json → Bool
  | Json.null => false
  | Json.bool b => b
  | Json.num n => decide (n ≠ 0)
  | Json.str s => decide (s ≠ "")
  | Json.arr _ => true
  | Json.obj _ => true

/-- Last binding of a key in an object field list: JSON.parse keeps the
last occurrence of a duplicated key. -/
def lookupLast : List (String × Json) → String → Option Json
  | [], _ => none
  | (k, v) :: rest, key =>
    match lookupLast rest key with
    | some r => some r
    | none => if k = key then some v else none

/-- Property access j.key on a parsed value: undefined (none) unless the
value is an object carrying the key. -/
def getField : Json → String → Option Json
  | Json.obj fields, key => lookupLast fields key
  | _, _ => none

/-- Strict equality test against the number 1, modelling the check
mySuggestion[index] === 1 on line 269 of src/index.js. -/
def isOne : Json → Bool
  | Json.num 1 => true
  | _ => false

/-! ### Cleaning of oracle output

The code cleans every oracle response with
output.replace(two regexes).trim(): first every occurrence of the
pattern three-backticks optionally followed by json and then a newline
is removed, then every remaining occurrence of three consecutive
backticks, and finally surrounding whitespace is trimmed
(lines 135-138 and 236-239 of src/index.js). The backtick character is
written as the escape \x60 throughout. -/

/-- First global regex replacement: remove every leftmost occurrence of
three backticks followed by an optional json tag and a newline. -/
def replaceFence1 : List Char → List Char
  | '\x60' :: '\x60' :: '\x60' :: 'j' :: 's' :: 'o' :: 'n' :: '\n' :: rest => replaceFence1 rest
  | '\x60' :: '\x60' :: '\x60' :: '\n' :: rest => replaceFence1 rest
  | c :: rest => c :: replaceFence1 rest
  | [] => []

/-- Second global regex replacement: remove every leftmost occurrence of
three consecutive backticks. -/
def replaceTicks : List Char → List Char
  | '\x60' :: '\x60' :: '\x60' :: rest => replaceTicks rest
  | c :: rest => c :: replaceTicks rest
  | [] => []

/-- Whitespace recognized by the trim step of the cleaning. -/
def isWsChar (c : Char) : Bool :=
  c = ' ' || c = '\n' || c = '\t' || c = '\r'

/-- Model of String.prototype.trim: drop whitespace from both ends. -/
def trimJS (s : List Char) : List Char :=
  List.rdropWhile isWsChar (List.dropWhile isWsChar s)

/-- The full cleaning applied to every oracle response text. -/
def cleanChars (s : List Char) : List Char :=
  trimJS (replaceTicks (replaceFence1 s))

/-- Number of leading backticks of a character list. -/
def leadTicks : List Char → Nat
  | c :: rest => if c = '\x60' then leadTicks rest + 1 else 0
  | [] => 0

/-- Whether a character list contains three consecutive backticks: some
position holds a backtick followed by at least two more. -/
def hasTriple : List Char → Bool
  | [] => false
  | c :: rest => (decide (c = '\x60') && decide (2 ≤ leadTicks rest)) || hasTriple rest

/-- A typical fenced oracle response: the payload wrapped in an opening
json fence and a closing fence. -/
def wrapFence (p : List Char) : List Char :=
  '\x60' :: '\x60' :: '\x60' :: 'j' :: 's' :: 'o' :: 'n' :: '\n' :: (p ++ '\n' :: ['\x60', '\x60', '\x60'])

/-! ### An executable model of JSON.parse

JSON.parse ignores whitespace around the top-level value, so it is
modelled as a parser over the trimmed text. Parsing is fuel-based to
keep every definition structurally recursive and kernel-evaluable. -/

/-- Skip JSON insignificant whitespace. -/
def skipWs (s : List Char) : List Char :=
  List.dropWhile isWsChar s

/-- Translate a JSON string escape character. -/
def escChar (c : Char) : Option Char :=
  if c = '"' ∨ c = '\\' ∨ c = '/' then some c
  else if c = 'n' then some '\n'
  else if c = 't' then some '\t'
  else if c = 'r' then some '\r'
  else if c = 'b' then some '\x08'
  else if c = 'f' then some '\x0c'
  else none

/-- Parse the body of a JSON string literal after its opening quote,
returning the decoded characters and the text after the closing quote. -/
def parseStrChars : List Char → Option (List Char × List Char)
  | [] => none
  | '"' :: rest => some ([], rest)
  | '\\' :: c :: rest =>
    match escChar c with
    | none => none
    | some e =>
      match parseStrChars rest with
      | some (cs, r) => some (e :: cs, r)
      | none => none
  | c :: rest =>
    match parseStrChars rest with
    | some (cs, r) => some (c :: cs, r)
    | none => none

/-- Accumulate a run of decimal digits. -/
def digitsToNat (acc : Nat) : List Char → Nat × List Char
  | c :: rest =>
    if c.isDigit then digitsToNat (acc * 10 + (c.toNat - 48)) rest
    else (acc, c :: rest)
  | [] => (acc, [])

/-- Parse an integer JSON number with an optional leading minus sign. -/
def parseNum : List Char → Option (Json × List Char)
  | '-' :: rest =>
    match rest with
    | c :: _ =>
      if c.isDigit then
        match digitsToNat 0 rest with
        | (n, r) => some (Json.num (-(n : Int)), r)
      else none
    | [] => none
  | c :: rest =>
    if c.isDigit then
      match digitsToNat 0 (c :: rest) with
      | (n, r) => some (Json.num (n : Int), r)
    else none
  | [] => none

/-- Parser mode: a top-level value, the elements of an array after its
opening bracket, or the members of an object after its opening brace. -/
inductive PMode where
  | val : PMode
  | arrTail (acc : List Json) : PMode
  | objTail (acc : List (String × Json)) : PMode

/-- One fuel-indexed parsing step for values, array tails and object
tails, returning the parsed value and the unconsumed text. -/
def parseStep : Nat → PMode → List Char → Option (Json × List Char)
  | 0, _, _ => none
  | fuel + 1, PMode.val, s =>
    match skipWs s with
    | 'n' :: 'u' :: 'l' :: 'l' :: r => some (Json.null, r)
    | 't' :: 'r' :: 'u' :: 'e' :: r => some (Json.bool true, r)
    | 'f' :: 'a' :: 'l' :: 's' :: 'e' :: r => some (Json.bool false, r)
    | '"' :: r =>
      (match parseStrChars r with
       | some (cs, r2) => some (Json.str (String.mk cs), r2)
       | none => none)
    | '[' :: r =>
      (match skipWs r with
       | ']' :: r2 => some (Json.arr [], r2)
       | r2 => parseStep fuel (PMode.arrTail []) r2)
    | '\x7b' :: r =>
      (match skipWs r with
       | '\x7d' :: r2 => some (Json.obj [], r2)
       | r2 => parseStep fuel (PMode.objTail []) r2)
    | s2 => parseNum s2
  | fuel + 1, PMode.arrTail acc, s =>
    match parseStep fuel PMode.val s with
    | none => none
    | some (v, rest) =>
      match skipWs rest with
      | ',' :: r2 => parseStep fuel (PMode.arrTail (acc ++ [v])) r2
      | ']' :: r2 => some (Json.arr (acc ++ [v]), r2)
      | _ => none
  | fuel + 1, PMode.objTail acc, s =>
    match skipWs s with
    | '"' :: r =>
      (match parseStrChars r with
       | none => none
       | some (kcs, r1) =>
         match skipWs r1 with
         | ':' :: r2 =>
           (match parseStep fuel PMode.val r2 with
            | none => none
            | some (v, r3) =>
              match skipWs r3 with
              | ',' :: r4 => parseStep fuel (PMode.objTail (acc ++ [(String.mk kcs, v)])) r4
              | '\x7d' :: r4 => some (Json.obj (acc ++ [(String.mk kcs, v)]), r4)
              | _ => none)
         | _ => none)
    | _ => none

/-- Parse a complete JSON text that has already been trimmed; anything
but trailing whitespace after the value is rejected. -/
def parseCore (t : List Char) : Option Json :=
  match parseStep (2 * t.length + 8) PMode.val t with
  | some (v, rest) => if (skipWs rest).isEmpty then some v else none
  | none => none

/-- Model of JSON.parse: whitespace around the top-level value is
insignificant, so the text is trimmed first. -/
def parseJson (s : List Char) : Option Json :=
  parseCore (trimJS s)

/-! ### Data model of the catalog stage -/

/-- A raw track record as returned by the catalog search service; every
field the mapping reads is optional because the response shape is not
contractually guaranteed. -/
structure RawSong where
  name : Option String
  id : Option String
  artistName : Option String
  albumName : Option String
  language : Option String
  year : Option String
  playCount : Option Int
  imageUrl2 : Option String
  downloadUrl : Option (List String)
deriving DecidableEq

/-- A normalized candidate song as assembled on lines 170-180 of
src/index.js. The id field stays optional because the mapping applies
no default to it. -/
structure CandidateSong where
  title : String
  id : Option String
  artist : String
  album : String
  language : String
  year : String
  playCount : Int
  image : String
  downloadUrls : List String
deriving DecidableEq

/-- Placeholder image used when a record carries no third image. -/
def placeholderImage : String := "https://via.placeholder.com/150"

/-- Mapping from a raw catalog record to a CandidateSong, with the
defensive defaults of lines 170-180 of src/index.js. -/
def mapRecord (r : RawSong) : CandidateSong where
  title := r.name.getD "Unknown Song"
  id := r.id
  artist := r.artistName.getD "Unknown Artist"
  album := r.albumName.getD "Unknown Album"
  language := r.language.getD "Unknown Language"
  year := r.year.getD "Unknown Year"
  playCount := r.playCount.getD 0
  image := r.imageUrl2.getD placeholderImage
  downloadUrls := r.downloadUrl.getD []

/-- Outcome of one catalog search request for one title. -/
inductive FetchOutcome where
  | notOk : FetchOutcome
  | threw : FetchOutcome
  | badShape : FetchOutcome
  | ok (results : List RawSong) : FetchOutcome

/-- Per-title processing of lines 157-192 of src/index.js: a non-success
status or a thrown error yields null (none), an unexpected response
shape yields an empty array, and a well-formed response yields the
mapped records. -/
def processSong : FetchOutcome → Option (List CandidateSong)
  | FetchOutcome.notOk => none
  | FetchOutcome.threw => none
  | FetchOutcome.badShape => some []
  | FetchOutcome.ok rs => some (rs.map mapRecord)

/-- Array.prototype.flat on the fan-out results: a null element stays a
single null element, an array element contributes its songs in order. -/
def flattenResults (rs : List (Option (List CandidateSong))) : List (Option CandidateSong) :=
  rs.flatMap fun o =>
    match o with
    | none => [none]
    | some l => l.map some

/-- Lines 195-197 of src/index.js: flatten the fan-out results and keep
the non-null songs whose play count reaches the fixed threshold. -/
def finalFilteredSongs (rs : List (Option (List CandidateSong))) : List CandidateSong :=
  (flattenResults rs).filterMap fun o =>
    match o with
    | none => none
    | some s => if 90000 ≤ s.playCount then some s else none

/-- Reduced projection of a candidate sent to the relevance oracle,
lines 200-209 of src/index.js. -/
def projectSong (s : CandidateSong) : Json :=
  Json.obj
    [("title", Json.str s.title), ("album", Json.str s.album), ("artist", Json.str s.artist),
      ("language", Json.str s.language), ("year", Json.str s.year), ("playCount", Json.num s.playCount)]

/-- Response assembly of lines 268-270 of src/index.js: keep the song at
every index whose relevance flag is strictly the number 1; an index past
the end of the vector reads undefined, which is not 1. -/
def assemble : List CandidateSong → List Json → List CandidateSong
  | [], _ => []
  | _ :: _, [] => []
  | c :: cs, v :: vs =>
    if isOne v then c :: assemble cs vs else assemble cs vs

/-! ### Serialization used only to build the prompt texts -/

/-- Escape one character of a JSON string being serialized. -/
def escapeJsonChar (c : Char) : List Char :=
  if c = '"' then ['\\', '"']
  else if c = '\\' then ['\\', '\\']
  else if c = '\n' then ['\\', 'n']
  else if c = '\t' then ['\\', 't']
  else if c = '\r' then ['\\', 'r']
  else [c]

mutual

/-- Model of JSON.stringify restricted to the values of this model. -/
def jsonStringify : Json → String
  | Json.null => "null"
  | Json.bool true => "true"
  | Json.bool false => "false"
  | Json.num n => toString n
  | Json.str s => "\"" ++ String.mk (s.data.flatMap escapeJsonChar) ++ "\""
  | Json.arr l => "[" ++ stringifyElems l ++ "]"
  | Json.obj l => "\x7b" ++ stringifyMembers l ++ "\x7d"

/-- Comma-joined serialization of array elements. -/
def stringifyElems : List Json → String
  | [] => ""
  | [j] => jsonStringify j
  | j :: rest => jsonStringify j ++ "," ++ stringifyElems rest

/-- Comma-joined serialization of object members. -/
def stringifyMembers : List (String × Json) → String
  | [] => ""
  | [(k, v)] => "\"" ++ k ++ "\":" ++ jsonStringify v
  | (k, v) :: rest => "\"" ++ k ++ "\":" ++ jsonStringify v ++ "," ++ stringifyMembers rest

end

mutual

/-- JavaScript string coercion of a value interpolated into a template
literal; arrays join their elements with commas and null elements of an
array join as empty strings. -/
def jsToString : Json → String
  | Json.null => "null"
  | Json.bool true => "true"
  | Json.bool false => "false"
  | Json.num n => toString n
  | Json.str s => s
  | Json.arr l => joinElems l
  | Json.obj _ => "[object Object]"

/-- Array.prototype.join with the default comma separator. -/
def joinElems : List Json → String
  | [] => ""
  | [Json.null] => ""
  | [j] => jsToString j
  | Json.null :: rest => "," ++ joinElems rest
  | j :: rest => jsToString j ++ "," ++ joinElems rest

end

/-! ### The pipeline of the /smart-search handler -/

/-- User-visible outcome of one request: a JSON body with the suggested
songs, or an error status and message. -/
inductive Response where
  | ok (suggestedSongs : List CandidateSong) : Response
  | err (status : Nat) (msg : String) : Response
deriving DecidableEq

/-- Prompt of the first oracle call, lines 92-94 of src/index.js. -/
def prompt1 (userInput : Json) : String :=
  "Return your output as valid JSON. The JSON should have a key \"songs\" that holds an array of song titles.\nIf the user specifies a song, return it in JSON format.\nUser input: "
    ++ jsonStringify userInput

/-- Prompt of the relevance oracle call, lines 211-220 of src/index.js. -/
def prompt2 (userInput : Json) (filteredSongsForAI : List Json) : String :=
  "Return your output as valid JSON.\nDetermine the relevance of each song in the list based on the input of the user.\n- Return 1 if the song is relevant, 0 otherwise.\n- If a song appears more than once, mark all duplicates as 0.\n- The first element of \"FilteredSongsForAI\" is the input of the user and should not be considered.\n- Provide the result in a JSON object with the key \"mySuggestion\", containing an array of integers (0 or 1).\n\nuserInput: "
    ++ jsToString userInput
    ++ "\nTotal Songs: " ++ toString filteredSongsForAI.length
    ++ "\nAPI call Output: " ++ jsonStringify (Json.arr filteredSongsForAI)

/-- Defaulting of the request body field on line 91 of src/index.js:
req.body.songs when truthy, the empty array otherwise. -/
def userInputOf (body : Json) : Json :=
  match getField body "songs" with
  | some j => if jsTruthy j then j else Json.arr []
  | none => Json.arr []

/-- Check of lines 150-153 of src/index.js: the parsed first-oracle
value must be truthy and carry an array at the key songs; the elements
of the array are not inspected. -/
def getSongsArr (parsed : Json) : Option (List Json) :=
  if jsTruthy parsed then
    match getField parsed "songs" with
    | some (Json.arr l) => some l
    | _ => none
  else none

/-- Check of lines 251-254 of src/index.js for the relevance vector. -/
def getMySuggestion (parsed : Json) : Option (List Json) :=
  if jsTruthy parsed then
    match getField parsed "mySuggestion" with
    | some (Json.arr l) => some l
    | _ => none
  else none

/-- Concurrent catalog fan-out: one outcome per generated title, in the
order of the titles. -/
def fanout (cat : Json → FetchOutcome) (titles : List Json) : List (Option (List CandidateSong)) :=
  titles.map fun t => processSong (cat t)

/-- Tail of the pipeline after the candidate titles are known: catalog
fan-out, thresholding, the relevance oracle call, parsing and alignment
validation, and final assembly (lines 156-272 of src/index.js). -/
def smartSearchTail (userInput : Json) (titles : List Json)
    (oracle2 : String → Except Unit String) (cat : Json → FetchOutcome) : Response :=
  let ff := finalFilteredSongs (fanout cat titles)
  match oracle2 (prompt2 userInput (ff.map projectSong)) with
  | Except.error _ => Response.err 500 "Error generating song suggestions"
  | Except.ok t2 =>
    match parseJson (cleanChars t2.data) with
    | none => Response.err 500 "Failed to parse filter response from AI"
    | some fp =>
      match getMySuggestion fp with
      | none => Response.err 500 "Unexpected filter JSON format"
      | some vec =>
        if vec.length ≠ ff.length then Response.err 500 "Suggestion array length mismatch"
        else Response.ok (assemble ff vec)

/-- The pipeline run on an already-defaulted user input: first oracle
call, cleaning, parsing, schema check, then the tail. -/
def smartSearchCore (userInput : Json) (oracle1 oracle2 : String → Except Unit String)
    (cat : Json → FetchOutcome) : Response :=
  match oracle1 (prompt1 userInput) with
  | Except.error _ => Response.err 500 "Error generating song suggestions"
  | Except.ok t1 =>
    match parseJson (cleanChars t1.data) with
    | none => Response.err 500 "Failed to parse response from AI"
    | some parsed =>
      match getSongsArr parsed with
      | none => Response.err 500 "Unexpected JSON format"
      | some titles => smartSearchTail userInput titles oracle2 cat

/-- The full /smart-search handler on a request body, the two oracles
and the catalog service. -/
def smartSearch (body : Json) (oracle1 oracle2 : String → Except Unit String)
    (cat : Json → FetchOutcome) : Response :=
  smartSearchCore (userInputOf body) oracle1 oracle2 cat

/-! ### Concrete instances used to exercise the theorems -/

/-- A raw catalog record with every field present and a large play count. -/
def rawA : RawSong :=
  ⟨some "Shape of You", some "idA", some "Ed Sheeran", some "Divide", some "English",
    some "2017", some 500000, some "imgA", some ["uA"]⟩

/-- The candidate obtained from rawA. -/
def songA : CandidateSong := mapRecord rawA

/-- A raw catalog record with every optional field missing. -/
def emptyRaw : RawSong := ⟨none, none, none, none, none, none, none, none, none⟩

/-- A request body naming one song. -/
def bodyW : Json := Json.obj [("songs", Json.str "shape of you")]

/-- A first oracle returning one well-formed title list. -/
def oracle1W : String → Except Unit String :=
  fun _ => Except.ok "\x7b\"songs\":[\"t\"]\x7d"

/-- A catalog resolving every title to the single record rawA. -/
def catW : Json → FetchOutcome := fun _ => FetchOutcome.ok [rawA]

/-- A relevance oracle returning a two-flag vector. -/
def oracle2Long : String → Except Unit String :=
  fun _ => Except.ok "\x7b\"mySuggestion\":[1,0]\x7d"

/-- A relevance oracle returning a single relevant flag. -/
def oracle2One : String → Except Unit String :=
  fun _ => Except.ok "\x7b\"mySuggestion\":[1]\x7d"

/-- A relevance oracle returning an empty vector. -/
def oracle2Empty : String → Except Unit String :=
  fun _ => Except.ok "\x7b\"mySuggestion\":[]\x7d"

/-- A first oracle returning a songs array holding a number, not a string. -/
def oracle1Num : String → Except Unit String :=
  fun _ => Except.ok "\x7b\"songs\":[1]\x7d"

/-- A first oracle returning valid JSON without the songs key. -/
def oracle1NoKey : String → Except Unit String :=
  fun _ => Except.ok "\x7b\"nosongs\":1\x7d"

/-- A catalog that always reports a non-success status. -/
def catDown : Json → FetchOutcome := fun _ => FetchOutcome.notOk

/-! ### Lemmas on backtick runs and the two regex replacements -/

theorem leadTicks_ge_two {l : List Char} (h : 2 ≤ leadTicks l) :
    ∃ m, l = '\x60' :: '\x60' :: m := by
  match l with
  | [] => simp [leadTicks] at h
  | [a] =>
    by_cases ha : a = '\x60' <;> simp [leadTicks, ha] at h
  | a :: b :: m =>
    by_cases ha : a = '\x60'
    · by_cases hb : b = '\x60'
      · exact ⟨m, by rw [ha, hb]⟩
      · rw [ha] at h; simp [leadTicks, hb] at h
    · simp [leadTicks, ha] at h

theorem leadTicks_le_append (a b : List Char) : leadTicks a ≤ leadTicks (a ++ b) := by
  induction a with
  | nil => simp [leadTicks]
  | cons c a ih =>
    by_cases hc : c = '\x60' <;> simp [leadTicks, hc]
    omega

theorem leadTicks_cons_ne {c : Char} (h : ¬c = '\x60') (l : List Char) :
    leadTicks (c :: l) = 0 := by
  simp [leadTicks, h]

theorem leadTicks_cons_tick (l : List Char) :
    leadTicks ('\x60' :: l) = leadTicks l + 1 := by
  simp [leadTicks]

theorem hasTriple_cons (c : Char) (l : List Char) :
    hasTriple (c :: l) = ((decide (c = '\x60') && decide (2 ≤ leadTicks l)) || hasTriple l) := rfl

theorem hasTriple_append {a b : List Char} (h : hasTriple (a ++ b) = false) :
    hasTriple a = false ∧ hasTriple b = false := by
  induction a with
  | nil => exact ⟨rfl, h⟩
  | cons c a ih =>
    rw [List.cons_append, hasTriple_cons] at h
    simp only [Bool.or_eq_false_iff, Bool.and_eq_false_iff] at h
    obtain ⟨h1, h2⟩ := h
    obtain ⟨ha, hb⟩ := ih h2
    refine ⟨?_, hb⟩
    rw [hasTriple_cons]
    simp only [Bool.or_eq_false_iff, Bool.and_eq_false_iff]
    refine ⟨?_, ha⟩
    rcases h1 with h1 | h1
    · exact Or.inl h1
    · right
      simp only [decide_eq_false_iff_not] at h1 ⊢
      have := leadTicks_le_append a b
      omega

theorem three_ticks_head {c : Char} {s rest : List Char}
    (hs : hasTriple (c :: s) = false) (hr : leadTicks rest = 0) :
    ∀ d : List Char, c :: (s ++ rest) ≠ '\x60' :: '\x60' :: '\x60' :: d := by
  intro d hd
  rw [List.cons_eq_cons] at hd
  obtain ⟨hc, hsr⟩ := hd
  rcases s with _ | ⟨a, s⟩
  · rw [List.nil_append] at hsr
    rw [hsr] at hr
    simp [leadTicks] at hr
  rcases s with _ | ⟨b, s⟩
  · rw [List.cons_append, List.nil_append, List.cons_eq_cons] at hsr
    obtain ⟨ha, hrest⟩ := hsr
    rw [hrest] at hr
    simp [leadTicks] at hr
  · rw [List.cons_append, List.cons_append, List.cons_eq_cons, List.cons_eq_cons] at hsr
    obtain ⟨ha, hb, _⟩ := hsr
    rw [hc, hasTriple_cons, ha, hb, leadTicks_cons_tick, leadTicks_cons_tick] at hs
    simp at hs

theorem replaceTicks_triple (m : List Char) :
    replaceTicks ('\x60' :: '\x60' :: '\x60' :: m) = replaceTicks m := rfl

theorem replaceTicks_nil : replaceTicks [] = [] := rfl

theorem replaceTicks_cons (c : Char) (l : List Char)
    (h : ¬(c = '\x60' ∧ 2 ≤ leadTicks l)) :
    replaceTicks (c :: l) = c :: replaceTicks l := by
  conv_lhs => rw [replaceTicks.eq_def]
  split
  · rename_i rest heq
    rw [List.cons_eq_cons] at heq
    obtain ⟨hc, hl⟩ := heq
    refine absurd ⟨hc, ?_⟩ h
    rw [hl, leadTicks_cons_tick, leadTicks_cons_tick]
    omega
  · rename_i c1 rest heq
    rw [List.cons_eq_cons] at heq
    obtain ⟨hc, hrest⟩ := heq
    rw [hc, hrest]
  · rename_i heq
    exact absurd heq (by simp)

theorem replaceTicks_append {s rest : List Char}
    (hs : hasTriple s = false) (hr : leadTicks rest = 0) :
    replaceTicks (s ++ rest) = s ++ replaceTicks rest := by
  induction s with
  | nil => simp
  | cons c s ih =>
    have hs0 := hs
    rw [hasTriple_cons] at hs
    simp only [Bool.or_eq_false_iff, Bool.and_eq_false_iff] at hs
    obtain ⟨h1, h2⟩ := hs
    have hcond : ¬(c = '\x60' ∧ 2 ≤ leadTicks (s ++ rest)) := by
      rintro ⟨hc, h2le⟩
      obtain ⟨m, hm⟩ := leadTicks_ge_two h2le
      exact three_ticks_head hs0 hr m (by rw [hm, hc])
    simp only [List.cons_append]
    rw [replaceTicks_cons c (s ++ rest) hcond, ih h2]

theorem replaceTicks_eq_self {s : List Char} (hs : hasTriple s = false) :
    replaceTicks s = s := by
  have := @replaceTicks_append s [] hs (by simp [leadTicks])
  simpa [replaceTicks_nil] using this

theorem replaceTicks_spec : ∀ n (s : List Char), s.length ≤ n →
    leadTicks (replaceTicks s) = leadTicks s % 3 ∧ hasTriple (replaceTicks s) = false := by
  intro n
  induction n with
  | zero =>
    intro s hs
    have : s = [] := List.eq_nil_of_length_eq_zero (Nat.le_zero.mp hs)
    subst this
    simp [replaceTicks, leadTicks, hasTriple]
  | succ n ih =>
    intro s hs
    rcases s with _ | ⟨c, l⟩
    · simp [replaceTicks, leadTicks, hasTriple]
    by_cases hc : c = '\x60'
    · subst hc
      by_cases h2 : 2 ≤ leadTicks l
      · obtain ⟨m, rfl⟩ := leadTicks_ge_two h2
        rw [replaceTicks_triple]
        have hm : m.length ≤ n := by simp at hs; omega
        obtain ⟨ih1, ih2⟩ := ih m hm
        refine ⟨?_, ih2⟩
        rw [ih1, leadTicks_cons_tick, leadTicks_cons_tick, leadTicks_cons_tick]
        omega
      · rw [replaceTicks_cons _ _ (fun hcc => h2 hcc.2)]
        have hl : l.length ≤ n := by simp at hs; omega
        obtain ⟨ih1, ih2⟩ := ih l hl
        have hlead1 : leadTicks l ≤ 1 := by omega
        constructor
        · rw [leadTicks_cons_tick, leadTicks_cons_tick, ih1]
          omega
        · rw [hasTriple_cons, ih2, ih1]
          have h3 : ¬2 ≤ leadTicks l % 3 := by omega
          simp [h3]
    · rw [replaceTicks_cons _ _ (fun hcc => hc hcc.1)]
      have hl : l.length ≤ n := by simp at hs; omega
      obtain ⟨ih1, ih2⟩ := ih l hl
      constructor
      · rw [leadTicks_cons_ne hc, leadTicks_cons_ne hc]
      · rw [hasTriple_cons, ih2]
        simp [hc]

theorem hasTriple_replaceTicks (s : List Char) : hasTriple (replaceTicks s) = false :=
  (replaceTicks_spec s.length s le_rfl).2

theorem replaceFence1_fenceJson (m : List Char) :
    replaceFence1 ('\x60' :: '\x60' :: '\x60' :: 'j' :: 's' :: 'o' :: 'n' :: '\n' :: m)
      = replaceFence1 m := rfl

theorem replaceFence1_nil : replaceFence1 [] = [] := rfl

theorem replaceFence1_cons (c : Char) (l : List Char)
    (h : ¬(c = '\x60' ∧ 2 ≤ leadTicks l)) :
    replaceFence1 (c :: l) = c :: replaceFence1 l := by
  conv_lhs => rw [replaceFence1.eq_def]
  split
  · rename_i rest heq
    rw [List.cons_eq_cons] at heq
    obtain ⟨hc, hl⟩ := heq
    refine absurd ⟨hc, ?_⟩ h
    rw [hl, leadTicks_cons_tick, leadTicks_cons_tick]
    omega
  · rename_i rest heq
    rw [List.cons_eq_cons] at heq
    obtain ⟨hc, hl⟩ := heq
    refine absurd ⟨hc, ?_⟩ h
    rw [hl, leadTicks_cons_tick, leadTicks_cons_tick]
    omega
  · rename_i c1 rest heq
    rw [List.cons_eq_cons] at heq
    obtain ⟨hc, hrest⟩ := heq
    rw [hc, hrest]
  · rename_i heq
    exact absurd heq (by simp)

theorem replaceFence1_append {s rest : List Char}
    (hs : hasTriple s = false) (hr : leadTicks rest = 0) :
    replaceFence1 (s ++ rest) = s ++ replaceFence1 rest := by
  induction s with
  | nil => simp
  | cons c s ih =>
    have hs0 := hs
    rw [hasTriple_cons] at hs
    simp only [Bool.or_eq_false_iff, Bool.and_eq_false_iff] at hs
    obtain ⟨h1, h2⟩ := hs
    have hcond : ¬(c = '\x60' ∧ 2 ≤ leadTicks (s ++ rest)) := by
      rintro ⟨hc, h2le⟩
      obtain ⟨m, hm⟩ := leadTicks_ge_two h2le
      exact three_ticks_head hs0 hr m (by rw [hm, hc])
    simp only [List.cons_append]
    rw [replaceFence1_cons c (s ++ rest) hcond, ih h2]

theorem replaceFence1_eq_self {s : List Char} (hs : hasTriple s = false) :
    replaceFence1 s = s := by
  have := @replaceFence1_append s [] hs (by simp [leadTicks])
  simpa [replaceFence1_nil] using this

/-! ### Lemmas on trimming and the cleaning as a whole -/

theorem dropWhile_append_nil {α : Type*} {q : α → Bool} {a : List α} (b : List α)
    (h : List.dropWhile q a = []) : List.dropWhile q (a ++ b) = List.dropWhile q b := by
  induction a with
  | nil => simp
  | cons c a ih =>
    rw [List.dropWhile_cons] at h
    by_cases hq : q c
    · rw [List.cons_append, List.dropWhile_cons, if_pos hq]
      exact ih (by rwa [if_pos hq] at h)
    · rw [if_neg hq] at h
      exact absurd h (by simp)

theorem dropWhile_append_ne {α : Type*} {q : α → Bool} {a : List α} (b : List α)
    (h : List.dropWhile q a ≠ []) : List.dropWhile q (a ++ b) = List.dropWhile q a ++ b := by
  induction a with
  | nil => simp at h
  | cons c a ih =>
    by_cases hq : q c
    · rw [List.dropWhile_cons, if_pos hq] at h
      rw [List.cons_append, List.dropWhile_cons, if_pos hq, List.dropWhile_cons, if_pos hq]
      exact ih h
    · rw [List.cons_append, List.dropWhile_cons, if_neg hq, List.dropWhile_cons, if_neg hq,
        List.cons_append]

theorem rdrop_decomp {α : Type*} (q : α → Bool) (x : List α) :
    List.rdropWhile q x ++ List.rtakeWhile q x = x := by
  rw [List.rdropWhile, List.rtakeWhile, ← List.reverse_append, List.takeWhile_append_dropWhile,
    List.reverse_reverse]

theorem dropWhile_rdropWhile {α : Type*} {q : α → Bool} {x : List α}
    (h : List.dropWhile q x = x) :
    List.dropWhile q (List.rdropWhile q x) = List.rdropWhile q x := by
  rcases hy : List.rdropWhile q x with _ | ⟨z, t⟩
  · simp
  · have hx : x = z :: (t ++ List.rtakeWhile q x) := by
      conv_lhs => rw [← rdrop_decomp q x]
      rw [hy, List.cons_append]
    have hz : ¬q z = true := by
      intro hzq
      rw [hx, List.dropWhile_cons, if_pos hzq] at h
      have hsub : (t ++ List.rtakeWhile q x).dropWhile q <:+ t ++ List.rtakeWhile q x :=
        List.dropWhile_suffix q
      have hlen := List.IsSuffix.length_le hsub
      have hlen2 := congrArg List.length h
      simp [List.length_append] at hlen hlen2
      omega
    rw [List.dropWhile_cons, if_neg hz]

theorem trimJS_idem (l : List Char) : trimJS (trimJS l) = trimJS l := by
  unfold trimJS
  rw [dropWhile_rdropWhile (List.dropWhile_idempotent _ _), List.rdropWhile_idempotent]

theorem trimJS_append_ws {c : Char} (hc : isWsChar c = true) (p : List Char) :
    trimJS (p ++ [c]) = trimJS p := by
  unfold trimJS
  by_cases h : List.dropWhile isWsChar p = []
  · rw [dropWhile_append_nil _ h, h]
    rw [List.dropWhile_cons, if_pos hc]
    simp
  · rw [dropWhile_append_ne _ h, List.rdropWhile_concat_pos _ _ _ hc]

theorem hasTriple_trimJS {l : List Char} (h : hasTriple l = false) :
    hasTriple (trimJS l) = false := by
  have h1 : hasTriple (List.dropWhile isWsChar l) = false := by
    refine (@hasTriple_append (List.takeWhile isWsChar l)
      (List.dropWhile isWsChar l) ?_).2
    rwa [List.takeWhile_append_dropWhile]
  refine (@hasTriple_append (List.rdropWhile isWsChar (List.dropWhile isWsChar l))
    (List.rtakeWhile isWsChar (List.dropWhile isWsChar l)) ?_).1
  rwa [rdrop_decomp]

theorem hasTriple_cleanChars (s : List Char) : hasTriple (cleanChars s) = false :=
  hasTriple_trimJS (hasTriple_replaceTicks _)

theorem cleanChars_idem (s : List Char) : cleanChars (cleanChars s) = cleanChars s := by
  conv_lhs => rw [cleanChars]
  rw [replaceFence1_eq_self (hasTriple_cleanChars s),
    replaceTicks_eq_self (hasTriple_cleanChars s)]
  conv_lhs => rw [cleanChars]
  rw [trimJS_idem, cleanChars]

theorem cleanChars_wrapFence {p : List Char} (hp : hasTriple p = false) :
    cleanChars (wrapFence p) = trimJS p := by
  have hnl : leadTicks ('\n' :: ['\x60', '\x60', '\x60']) = 0 := by
    rw [leadTicks_cons_ne (by decide)]
  unfold cleanChars wrapFence
  rw [replaceFence1_fenceJson, replaceFence1_append hp hnl,
    show replaceFence1 ('\n' :: ['\x60', '\x60', '\x60']) = '\n' :: ['\x60', '\x60', '\x60'] from rfl,
    replaceTicks_append hp hnl,
    show replaceTicks ('\n' :: ['\x60', '\x60', '\x60']) = ['\n'] from rfl]
  exact trimJS_append_ws (by decide) p

theorem parseJson_trimJS (s : List Char) : parseJson (trimJS s) = parseJson s := by
  unfold parseJson
  rw [trimJS_idem]

/-! ### Lemmas on the catalog stage and the assembly -/

theorem assemble_nil_left (vec : List Json) : assemble [] vec = [] := rfl

theorem assemble_nil_right (c : CandidateSong) (cs : List CandidateSong) :
    assemble (c :: cs) [] = [] := rfl

theorem assemble_cons (c : CandidateSong) (cs : List CandidateSong) (v : Json) (vs : List Json) :
    assemble (c :: cs) (v :: vs) =
      if isOne v then c :: assemble cs vs else assemble cs vs := rfl

theorem assemble_sublist (cands : List CandidateSong) (vec : List Json) :
    List.Sublist (assemble cands vec) cands := by
  induction cands generalizing vec with
  | nil => simp [assemble_nil_left]
  | cons c cs ih =>
    rcases vec with _ | ⟨v, vs⟩
    · rw [assemble_nil_right]
      exact List.nil_sublist _
    · rw [assemble_cons]
      by_cases hv : isOne v
      · rw [if_pos hv]
        exact List.Sublist.cons₂ c (ih vs)
      · rw [if_neg hv]
        exact List.Sublist.cons c (ih vs)

theorem assemble_mem {cands : List CandidateSong} {vec : List Json} {s : CandidateSong}
    (h : s ∈ assemble cands vec) : s ∈ cands :=
  List.Sublist.mem h (assemble_sublist cands vec)

theorem assemble_zip (cands : List CandidateSong) (vec : List Json) :
    assemble cands vec = ((cands.zip vec).filter fun p => isOne p.2).map Prod.fst := by
  induction cands generalizing vec with
  | nil => simp [assemble_nil_left]
  | cons c cs ih =>
    rcases vec with _ | ⟨v, vs⟩
    · simp [assemble_nil_right]
    · rw [assemble_cons, List.zip_cons_cons, List.filter_cons]
      by_cases hv : isOne v
      · simp only [hv, if_true, List.map_cons, ih]
      · simp only [hv, Bool.false_eq_true, if_false, ih]

theorem mem_finalFilteredSongs {s : CandidateSong} {rs : List (Option (List CandidateSong))}
    (h : s ∈ finalFilteredSongs rs) : 90000 ≤ s.playCount := by
  unfold finalFilteredSongs at h
  rw [List.mem_filterMap] at h
  obtain ⟨o, _, ho⟩ := h
  rcases o with _ | c
  · simp at ho
  · dsimp only at ho
    by_cases hc : 90000 ≤ c.playCount
    · rw [if_pos hc] at ho
      cases ho
      exact hc
    · rw [if_neg hc] at ho
      cases ho

theorem finalFilteredSongs_append (a b : List (Option (List CandidateSong))) :
    finalFilteredSongs (a ++ b) = finalFilteredSongs a ++ finalFilteredSongs b := by
  unfold finalFilteredSongs flattenResults
  rw [List.flatMap_append, List.filterMap_append]

theorem processSong_failure {fo : FetchOutcome}
    (h : fo = FetchOutcome.notOk ∨ fo = FetchOutcome.threw ∨ fo = FetchOutcome.badShape) :
    finalFilteredSongs [processSong fo] = [] := by
  rcases h with rfl | rfl | rfl <;> rfl

theorem smartSearchTail_ok {u : Json} {titles : List Json}
    {o2 : String → Except Unit String} {cat : Json → FetchOutcome} {out : List CandidateSong}
    (h : smartSearchTail u titles o2 cat = Response.ok out) :
    ∃ vec, out = assemble (finalFilteredSongs (fanout cat titles)) vec := by
  simp only [smartSearchTail] at h
  split at h
  · exact Response.noConfusion h
  · split at h
    · exact Response.noConfusion h
    · split at h
      · exact Response.noConfusion h
      · split at h
        · exact Response.noConfusion h
        · exact ⟨_, (Response.ok.inj h).symm⟩

theorem smartSearch_ok {body : Json} {o1 o2 : String → Except Unit String}
    {cat : Json → FetchOutcome} {out : List CandidateSong}
    (h : smartSearch body o1 o2 cat = Response.ok out) :
    ∃ titles vec, out = assemble (finalFilteredSongs (fanout cat titles)) vec := by
  unfold smartSearch smartSearchCore at h
  split at h
  · exact Response.noConfusion h
  · split at h
    · exact Response.noConfusion h
    · split at h
      · exact Response.noConfusion h
      · obtain ⟨vec, hv⟩ := smartSearchTail_ok h
        exact ⟨_, vec, hv⟩

theorem assemble_eraseIdx (cands : List CandidateSong) (vec : List Json)
    (h : vec.length = cands.length) :
    ∀ i (hi : i < vec.length), isOne (vec.get ⟨i, hi⟩) = false →
      assemble cands vec = assemble (cands.eraseIdx i) (vec.eraseIdx i) := by
  induction cands generalizing vec with
  | nil =>
    have hnil : vec = [] := List.eq_nil_of_length_eq_zero h
    subst hnil
    intro i hi
    simp at hi
  | cons c cs ih =>
    rcases vec with _ | ⟨v, vs⟩
    · intro i hi
      simp at hi
    · intro i hi hflag
      rcases i with _ | i
      · have hv : isOne v = false := hflag
        rw [assemble_cons, if_neg (by simp [hv]), List.eraseIdx_cons_zero,
          List.eraseIdx_cons_zero]
      · have hlen : vs.length = cs.length := by simpa using h
        have hi2 : i < vs.length := by simpa using hi
        have hflag2 : isOne (vs.get ⟨i, hi2⟩) = false := hflag
        rw [List.eraseIdx_cons_succ, List.eraseIdx_cons_succ, assemble_cons, assemble_cons,
          ih vs hlen i hi2 hflag2]

/-! ### The claims -/

/-- C1: whenever the relevance oracle answer parses to a vector whose
length differs from the candidate count, the /smart-search request fails
with the alignment-mismatch error, HTTP 500, no suggestedSongs is
returned, and neither sequence is truncated or padded. -/
theorem alignment_mismatch_fails
    (body : Json) (o1 o2 : String → Except Unit String) (cat : Json → FetchOutcome)
    (t1 : String) (parsed : Json) (titles : List Json) (t2 : String) (fp : Json)
    (vec : List Json)
    (h1 : o1 (prompt1 (userInputOf body)) = Except.ok t1)
    (h2 : parseJson (cleanChars t1.data) = some parsed)
    (h3 : getSongsArr parsed = some titles)
    (h4 : o2 (prompt2 (userInputOf body)
        ((finalFilteredSongs (fanout cat titles)).map projectSong)) = Except.ok t2)
    (h5 : parseJson (cleanChars t2.data) = some fp)
    (h6 : getMySuggestion fp = some vec)
    (h7 : vec.length ≠ (finalFilteredSongs (fanout cat titles)).length) :
    smartSearch body o1 o2 cat = Response.err 500 "Suggestion array length mismatch"
    ∧ ∀ out, smartSearch body o1 o2 cat ≠ Response.ok out := by
  have hmain : smartSearch body o1 o2 cat
      = Response.err 500 "Suggestion array length mismatch" := by
    unfold smartSearch smartSearchCore
    rw [h1]
    dsimp only
    rw [h2]
    dsimp only
    rw [h3]
    dsimp only
    simp only [smartSearchTail]
    rw [h4]
    dsimp only
    rw [h5]
    dsimp only
    rw [h6]
    dsimp only
    rw [if_pos h7]
  exact ⟨hmain, fun out => by rw [hmain]; exact fun hc => Response.noConfusion hc⟩

/-- C1 witness: a concrete run whose relevance vector has length two
while one candidate survived the threshold. -/
theorem alignment_mismatch_fails_witness :
    smartSearch bodyW oracle1W oracle2Long catW
      = Response.err 500 "Suggestion array length mismatch"
    ∧ ∀ out, smartSearch bodyW oracle1W oracle2Long catW ≠ Response.ok out :=
  alignment_mismatch_fails bodyW oracle1W oracle2Long catW
    "\x7b\"songs\":[\"t\"]\x7d" (Json.obj [("songs", Json.arr [Json.str "t"])])
    [Json.str "t"] "\x7b\"mySuggestion\":[1,0]\x7d"
    (Json.obj [("mySuggestion", Json.arr [Json.num 1, Json.num 0])])
    [Json.num 1, Json.num 0]
    rfl rfl rfl rfl rfl rfl (by decide)

/-- C2: on equal-length inputs the assembly returns exactly the
candidates whose aligned flag is one, in the original order, and the
result is a sublist of the candidates, hence no longer than them; the
assembly is a total pure function. -/
theorem assemble_spec (cands : List CandidateSong) (vec : List Json)
    (h : vec.length = cands.length) :
    assemble cands vec = ((cands.zip vec).filter fun p => isOne p.2).map Prod.fst
    ∧ (assemble cands vec).length ≤ cands.length
    ∧ List.Sublist (assemble cands vec) cands :=
  ⟨assemble_zip cands vec, List.Sublist.length_le (assemble_sublist cands vec),
    assemble_sublist cands vec⟩

/-- C2 witness: the assembly evaluated on one candidate and one flag. -/
theorem assemble_spec_witness :
    assemble [songA] [Json.num 1]
        = ((([songA]).zip [Json.num 1]).filter fun p => isOne p.2).map Prod.fst
    ∧ (assemble [songA] [Json.num 1]).length ≤ ([songA]).length
    ∧ List.Sublist (assemble [songA] [Json.num 1]) [songA] :=
  assemble_spec [songA] [Json.num 1] rfl

/-- C3: every candidate surviving the threshold filter has a play count
of at least 90000, and every song in a successful final response does as
well, because assembly only removes elements. -/
theorem playCount_threshold :
    (∀ rs : List (Option (List CandidateSong)), ∀ s ∈ finalFilteredSongs rs,
      90000 ≤ s.playCount)
    ∧ ∀ (body : Json) (o1 o2 : String → Except Unit String) (cat : Json → FetchOutcome)
        (out : List CandidateSong), smartSearch body o1 o2 cat = Response.ok out →
        ∀ s ∈ out, 90000 ≤ s.playCount := by
  constructor
  · intro rs s hs
    exact mem_finalFilteredSongs hs
  · intro body o1 o2 cat out h s hs
    obtain ⟨titles, vec, hout⟩ := smartSearch_ok h
    subst hout
    exact mem_finalFilteredSongs (assemble_mem hs)

/-- C3 witness: a full successful run returning one song. -/
theorem playCount_threshold_witness : ∀ s ∈ [songA], 90000 ≤ s.playCount :=
  playCount_threshold.2 bodyW oracle1W oracle2One catW [songA] rfl

/-- C4 counterexample: the record with every optional field missing maps
to a candidate whose id field is undefined even though the documented
defaults are applied to the artist, image and play count. -/
theorem mapRecord_missing_id :
    (mapRecord emptyRaw).id = none
    ∧ (mapRecord emptyRaw).artist = "Unknown Artist"
    ∧ (mapRecord emptyRaw).image = placeholderImage
    ∧ (mapRecord emptyRaw).playCount = 0 :=
  ⟨rfl, rfl, rfl, rfl⟩

/-- C4 as amended: every field except id receives its documented default
when missing and the raw value when present, while id is passed through
unchanged and stays undefined when the record lacks it. -/
theorem mapRecord_defaults (r : RawSong) :
    ((r.name = none → (mapRecord r).title = "Unknown Song")
      ∧ ∀ v, r.name = some v → (mapRecord r).title = v)
    ∧ ((r.artistName = none → (mapRecord r).artist = "Unknown Artist")
      ∧ ∀ v, r.artistName = some v → (mapRecord r).artist = v)
    ∧ ((r.albumName = none → (mapRecord r).album = "Unknown Album")
      ∧ ∀ v, r.albumName = some v → (mapRecord r).album = v)
    ∧ ((r.language = none → (mapRecord r).language = "Unknown Language")
      ∧ ∀ v, r.language = some v → (mapRecord r).language = v)
    ∧ ((r.year = none → (mapRecord r).year = "Unknown Year")
      ∧ ∀ v, r.year = some v → (mapRecord r).year = v)
    ∧ ((r.playCount = none → (mapRecord r).playCount = 0)
      ∧ ∀ v, r.playCount = some v → (mapRecord r).playCount = v)
    ∧ ((r.imageUrl2 = none → (mapRecord r).image = placeholderImage)
      ∧ ∀ v, r.imageUrl2 = some v → (mapRecord r).image = v)
    ∧ ((r.downloadUrl = none → (mapRecord r).downloadUrls = [])
      ∧ ∀ v, r.downloadUrl = some v → (mapRecord r).downloadUrls = v)
    ∧ (mapRecord r).id = r.id := by
  refine ⟨⟨?_, ?_⟩, ⟨?_, ?_⟩, ⟨?_, ?_⟩, ⟨?_, ?_⟩, ⟨?_, ?_⟩, ⟨?_, ?_⟩, ⟨?_, ?_⟩, ⟨?_, ?_⟩, rfl⟩ <;>
    intros <;> simp [mapRecord, *]

/-- C4 witness: the defaults theorem applied to the fully present
record. -/
theorem mapRecord_defaults_witness : (mapRecord rawA).artist = "Ed Sheeran" :=
  (mapRecord_defaults rawA).2.1.2 "Ed Sheeran" rfl

/-- C5 counterexample: a valid JSON payload holding three backticks in a
string literal parses differently after fencing and cleaning, because
the global backtick replacement also rewrites string contents. -/
theorem fence_strip_cex :
    parseJson "\x7b\"a\":\"x```y\"\x7d".data = some (Json.obj [("a", Json.str "x```y")])
    ∧ parseJson (cleanChars (wrapFence "\x7b\"a\":\"x```y\"\x7d".data))
        = some (Json.obj [("a", Json.str "xy")])
    ∧ parseJson (cleanChars (wrapFence "\x7b\"a\":\"x```y\"\x7d".data))
        ≠ parseJson "\x7b\"a\":\"x```y\"\x7d".data := by
  refine ⟨rfl, rfl, ?_⟩
  rw [show parseJson (cleanChars (wrapFence "\x7b\"a\":\"x```y\"\x7d".data))
        = some (Json.obj [("a", Json.str "xy")]) from rfl,
    show parseJson "\x7b\"a\":\"x```y\"\x7d".data
        = some (Json.obj [("a", Json.str "x```y")]) from rfl]
  intro hc
  simp at hc

/-- C5 as amended: cleaning is idempotent on every text, and for every
payload free of backtick triples, cleaning the fenced text gives exactly
the trimmed payload, so parsing it yields the same value as parsing the
payload directly. -/
theorem fence_strip_clean (s p : List Char) (v : Json)
    (hp : hasTriple p = false) (hv : parseJson p = some v) :
    cleanChars (cleanChars s) = cleanChars s
    ∧ cleanChars (wrapFence p) = trimJS p
    ∧ parseJson (cleanChars (wrapFence p)) = some v := by
  refine ⟨cleanChars_idem s, cleanChars_wrapFence hp, ?_⟩
  rw [cleanChars_wrapFence hp, parseJson_trimJS, hv]

/-- C5 witness: the cleaning theorem at a concrete fenced payload. -/
theorem fence_strip_clean_witness :
    cleanChars (cleanChars "x".data) = cleanChars "x".data
    ∧ cleanChars (wrapFence "\x7b\"songs\":[]\x7d".data) = trimJS "\x7b\"songs\":[]\x7d".data
    ∧ parseJson (cleanChars (wrapFence "\x7b\"songs\":[]\x7d".data))
        = some (Json.obj [("songs", Json.arr [])]) :=
  fence_strip_clean "x".data "\x7b\"songs\":[]\x7d".data
    (Json.obj [("songs", Json.arr [])]) (by decide) rfl

/-- C6: a title whose catalog search fails with a non-success status, a
thrown fetch, or an unexpected shape contributes no candidates, and the
rest of the pipeline behaves exactly as if the title were absent: the
other titles still reach the flattened sequence and the final result. -/
theorem catalog_fault_isolated :
    (∀ (pre post : List (Option (List CandidateSong))) (fo : FetchOutcome),
        (fo = FetchOutcome.notOk ∨ fo = FetchOutcome.threw ∨ fo = FetchOutcome.badShape) →
        finalFilteredSongs (pre ++ processSong fo :: post) = finalFilteredSongs (pre ++ post))
    ∧ ∀ (u : Json) (tpre tpost : List Json) (tf : Json)
        (o2 : String → Except Unit String) (cat : Json → FetchOutcome),
        (cat tf = FetchOutcome.notOk ∨ cat tf = FetchOutcome.threw
          ∨ cat tf = FetchOutcome.badShape) →
        smartSearchTail u (tpre ++ tf :: tpost) o2 cat
          = smartSearchTail u (tpre ++ tpost) o2 cat := by
  have key : ∀ (pre post : List (Option (List CandidateSong))) (fo : FetchOutcome),
      (fo = FetchOutcome.notOk ∨ fo = FetchOutcome.threw ∨ fo = FetchOutcome.badShape) →
      finalFilteredSongs (pre ++ processSong fo :: post) = finalFilteredSongs (pre ++ post) := by
    intro pre post fo hfo
    have h1 : processSong fo :: post = [processSong fo] ++ post := rfl
    rw [h1, finalFilteredSongs_append, finalFilteredSongs_append, processSong_failure hfo,
      finalFilteredSongs_append]
    simp
  refine ⟨key, ?_⟩
  intro u tpre tpost tf o2 cat hf
  have hff : finalFilteredSongs (fanout cat (tpre ++ tf :: tpost))
      = finalFilteredSongs (fanout cat (tpre ++ tpost)) := by
    unfold fanout
    simp only [List.map_append, List.map_cons]
    exact key (tpre.map _) (tpost.map _) (cat tf) hf
  simp only [smartSearchTail]
  rw [hff]

/-- C6 witness: one failing outcome between two absent neighbours. -/
theorem catalog_fault_isolated_witness :
    finalFilteredSongs ([] ++ processSong FetchOutcome.notOk :: [])
      = finalFilteredSongs ([] ++ []) :=
  catalog_fault_isolated.1 [] [] FetchOutcome.notOk (Or.inl rfl)

/-- C7: on successful searches the flattened sequence is exactly the
concatenation of the per-title record lists in title order, each kept in
the catalog order of that title, and nothing is deduplicated: the length
is the sum of the per-title lengths. -/
theorem flatten_order_no_dedup (rss : List (List RawSong)) :
    flattenResults (rss.map fun rs => processSong (FetchOutcome.ok rs))
      = ((rss.flatMap fun rs => rs.map mapRecord).map some)
    ∧ (flattenResults (rss.map fun rs => processSong (FetchOutcome.ok rs))).length
        = (rss.map List.length).sum := by
  have h1 : flattenResults (rss.map fun rs => processSong (FetchOutcome.ok rs))
      = ((rss.flatMap fun rs => rs.map mapRecord).map some) := by
    unfold flattenResults processSong
    rw [List.flatMap_map, List.map_flatMap]
  refine ⟨h1, ?_⟩
  rw [h1]
  simp [List.length_flatMap, Function.comp_def]

/-- C8 counterexample: a parsed first-oracle object whose songs array
holds the number one passes the schema check and the pipeline completes
with a success response, so arrays with non-string elements are not
rejected. -/
theorem schema_check_cex :
    parseJson (cleanChars "\x7b\"songs\":[1]\x7d".data)
      = some (Json.obj [("songs", Json.arr [Json.num 1])])
    ∧ smartSearch bodyW oracle1Num oracle2Empty catDown = Response.ok []
    ∧ smartSearch bodyW oracle1Num oracle2Empty catDown
        ≠ Response.err 500 "Unexpected JSON format" := by
  refine ⟨rfl, rfl, ?_⟩
  rw [show smartSearch bodyW oracle1Num oracle2Empty catDown = Response.ok [] from rfl]
  exact fun hc => Response.noConfusion hc

/-- C8 as amended: the request fails with the schema error exactly when
the parsed value is falsy or its songs field is not an array; when the
field is an array of any elements, string or not, the pipeline proceeds
to the catalog stage with those elements as titles. -/
theorem schema_check_shape (body : Json) (o1 o2 : String → Except Unit String)
    (cat : Json → FetchOutcome) (t1 : String) (parsed : Json)
    (h1 : o1 (prompt1 (userInputOf body)) = Except.ok t1)
    (h2 : parseJson (cleanChars t1.data) = some parsed) :
    (getSongsArr parsed = none →
      smartSearch body o1 o2 cat = Response.err 500 "Unexpected JSON format")
    ∧ (∀ titles, getSongsArr parsed = some titles →
      smartSearch body o1 o2 cat = smartSearchTail (userInputOf body) titles o2 cat)
    ∧ ∀ titles, getSongsArr parsed = some titles ↔
        (jsTruthy parsed = true ∧ getField parsed "songs" = some (Json.arr titles)) := by
  refine ⟨?_, ?_, ?_⟩
  · intro hn
    unfold smartSearch smartSearchCore
    rw [h1]
    dsimp only
    rw [h2]
    dsimp only
    rw [hn]
  · intro titles ht
    unfold smartSearch smartSearchCore
    rw [h1]
    dsimp only
    rw [h2]
    dsimp only
    rw [ht]
  · intro titles
    unfold getSongsArr
    by_cases htr : jsTruthy parsed
    · rw [if_pos htr]
      cases hf : getField parsed "songs" with
      | none => simp [htr]
      | some j => rcases j with _ | b | n | s | l | fl <;> simp [htr]
    · rw [if_neg htr]
      simp [htr]

/-- C8 witness: a parsed object without the songs key produces the
schema error. -/
theorem schema_check_shape_witness :
    smartSearch bodyW oracle1NoKey oracle2Empty catDown
      = Response.err 500 "Unexpected JSON format" :=
  (schema_check_shape bodyW oracle1NoKey oracle2Empty catDown
    "\x7b\"nosongs\":1\x7d" (Json.obj [("nosongs", Json.num 1)]) rfl rfl).1 rfl

/-- C9: a candidate is kept only when its aligned flag is strictly the
number one; at any index whose flag is any other value, among them zero,
two, the string one and null, the run behaves exactly as if the
candidate and its flag were absent, with no error raised. -/
theorem assemble_strict_one (cands : List CandidateSong) (vec : List Json)
    (h : vec.length = cands.length) :
    (∀ i (hi : i < vec.length), isOne (vec.get ⟨i, hi⟩) = false →
        assemble cands vec = assemble (cands.eraseIdx i) (vec.eraseIdx i))
    ∧ isOne (Json.num 1) = true ∧ isOne (Json.num 0) = false ∧ isOne (Json.num 2) = false
    ∧ isOne (Json.str "1") = false ∧ isOne Json.null = false :=
  ⟨assemble_eraseIdx cands vec h, rfl, rfl, rfl, rfl, rfl⟩

/-- C9 witness: a zero flag drops the only candidate. -/
theorem assemble_strict_one_witness :
    assemble [songA] [Json.num 0]
      = assemble (([songA]).eraseIdx 0) (([Json.num 0]).eraseIdx 0) :=
  (assemble_strict_one [songA] [Json.num 0] rfl).1 0 (by decide) rfl

/-- C10: a request body whose songs field is absent or falsy is not
rejected: the user input defaults to the empty array and the whole run
is identical to the run on a body carrying an explicit empty array. -/
theorem missing_songs_default (body : Json) (o1 o2 : String → Except Unit String)
    (cat : Json → FetchOutcome)
    (h : ∀ j, getField body "songs" = some j → jsTruthy j = false) :
    userInputOf body = Json.arr []
    ∧ smartSearch body o1 o2 cat
        = smartSearch (Json.obj [("songs", Json.arr [])]) o1 o2 cat := by
  have hu : userInputOf body = Json.arr [] := by
    unfold userInputOf
    cases hf : getField body "songs" with
    | none => rfl
    | some j =>
      dsimp only
      rw [if_neg (by simp [h j hf])]
  refine ⟨hu, ?_⟩
  unfold smartSearch
  rw [hu, show userInputOf (Json.obj [("songs", Json.arr [])]) = Json.arr [] from rfl]

/-- C10 witness: a body without any songs field still runs the whole
pipeline and returns the same response as the explicit empty array. -/
theorem missing_songs_default_witness :
    userInputOf (Json.obj []) = Json.arr []
    ∧ smartSearch (Json.obj []) oracle1W oracle2One catW
        = smartSearch (Json.obj [("songs", Json.arr [])]) oracle1W oracle2One catW :=
  missing_songs_default (Json.obj []) oracle1W oracle2One catW
    (fun j hj => Option.noConfusion hj)

end SmartSearch
